import Mathlib

set_option autoImplicit false

/-!
A shallow embedding of the NSEStockAnalysis signal-collection and scoring
pipeline: src/fundamentals/fetcher.py, src/fundamentals/report.py,
src/news/report.py and src/news/policy_report.py.

Modeling conventions: pandas DataFrames are Lean lists of row structures
(column sets are fixed by the row type, except where column headers are
themselves the property under study, in which case they are modeled as
explicit string lists); Python floats are the type PFloat below, finite
values idealized as rationals; Python None and pandas missing values are
Option.none.
-/

/-- Model of a Python float: a finite value (idealized as a rational), NaN,
positive infinity, or negative infinity. -/
inductive PFloat where
  | fin (q : ℚ)
  | nan
  | inf
  | ninf
deriving DecidableEq, Repr

namespace PFloat

/-- Model of pd.isna on a float: true exactly on NaN. -/
def isna : PFloat → Bool
  | nan => true
  | _ => false

/-- Finiteness of a float value. -/
def isFinite : PFloat → Bool
  | fin _ => true
  | _ => false

/-- Python truthiness of a float: 0.0 is falsy; every other float value,
including NaN and the infinities, is truthy. -/
def truthy : PFloat → Bool
  | fin q => q ≠ 0
  | _ => true

/-- Comparison x > c against a rational constant; NaN compares false. -/
def pgt : PFloat → ℚ → Bool
  | fin q, c => q > c
  | nan, _ => false
  | inf, _ => true
  | ninf, _ => false

/-- Comparison x ≥ c against a rational constant; NaN compares false. -/
def pge : PFloat → ℚ → Bool
  | fin q, c => q ≥ c
  | nan, _ => false
  | inf, _ => true
  | ninf, _ => false

/-- Comparison x ≤ c against a rational constant; NaN compares false. -/
def ple : PFloat → ℚ → Bool
  | fin q, c => q ≤ c
  | nan, _ => false
  | inf, _ => false
  | ninf, _ => true

/-- Comparison x < y between two floats; false whenever NaN is involved. -/
def plt : PFloat → PFloat → Bool
  | nan, _ => false
  | _, nan => false
  | fin p, fin q => p < q
  | fin _, inf => true
  | fin _, ninf => false
  | inf, _ => false
  | ninf, ninf => false
  | ninf, _ => true

/-- IEEE-style division of two floats. The pipeline only divides by a value
checked to be > 0; division by a finite 0 (a ZeroDivisionError in Python)
is mapped to NaN, an unreachable case at the call site. -/
def pdiv : PFloat → PFloat → PFloat
  | nan, _ => nan
  | _, nan => nan
  | fin p, fin q => if q = 0 then nan else fin (p / q)
  | fin _, inf => fin 0
  | fin _, ninf => fin 0
  | inf, fin q => if q > 0 then inf else if q < 0 then ninf else nan
  | ninf, fin q => if q > 0 then ninf else if q < 0 then inf else nan
  | inf, inf => nan
  | inf, ninf => nan
  | ninf, inf => nan
  | ninf, ninf => nan

/-- Multiplication by a positive rational constant (used for insider × 100). -/
def pmul : PFloat → ℚ → PFloat
  | fin q, c => fin (q * c)
  | nan, _ => nan
  | inf, _ => inf
  | ninf, _ => ninf

end PFloat

/-- A Python value that is either None (or pandas-missing) or a float. -/
abbrev PyNum := Option PFloat

/-- Python truthiness of an optional float; None is falsy. -/
def truthyOpt : PyNum → Bool
  | none => false
  | some f => f.truthy

/-- Model of pd.notna on an optional float. -/
def notnaO : PyNum → Bool
  | none => false
  | some f => !f.isna

/-- Comparison v > c, false on a missing value. -/
def ogt (v : PyNum) (c : ℚ) : Bool :=
  match v with
  | some f => f.pgt c
  | none => false

/-- Comparison v ≥ c, false on a missing value. -/
def oge (v : PyNum) (c : ℚ) : Bool :=
  match v with
  | some f => f.pge c
  | none => false

/-- Comparison v ≤ c, false on a missing value. -/
def ole (v : PyNum) (c : ℚ) : Bool :=
  match v with
  | some f => f.ple c
  | none => false

/-- Comparison a < b between optional floats, false when either is missing. -/
def oflt (a b : PyNum) : Bool :=
  match a, b with
  | some x, some y => x.plt y
  | _, _ => false

/-- Embedding of fundamentals.fetcher._to_float (lines 31-40): None stays
absent; a value whose pd.isna is true (NaN) collapses to absent; any other
float is returned unchanged. The float(value) conversion cannot fail on the
domain modeled here (values that are already None or a float). -/
def to_float : PyNum → PyNum
  | none => none
  | some f => if f.isna then none else some f

/-- Python expression `a or b` on two optional floats: a when truthy, else b. -/
def py_or (a b : PyNum) : PyNum := if truthyOpt a then a else b

/-- The fields of the yfinance info mapping that fetch_single_fundamental
reads, each either absent or a float (plus the two string fields). -/
structure Info where
  trailingPE : PyNum
  trailingEps : PyNum
  currentPrice : PyNum
  regularMarketPrice : PyNum
  forwardPE : PyNum
  pegRatio : PyNum
  priceToBook : PyNum
  debtToEquity : PyNum
  returnOnEquity : PyNum
  returnOnAssets : PyNum
  profitMargins : PyNum
  marketCap : PyNum
  heldPercentInsiders : PyNum
  industry : Option String
  sector : Option String
deriving DecidableEq, Repr

/-- Embedding of the dataclass FundamentalRow of fundamentals/fetcher.py. -/
structure FundamentalRow where
  symbol : String
  yahoo_ticker : String
  company_name : String
  industry : Option String
  sector : Option String
  trailing_pe : PyNum
  forward_pe : PyNum
  peg_ratio : PyNum
  price_to_book : PyNum
  debt_to_equity : PyNum
  return_on_equity : PyNum
  return_on_assets : PyNum
  profit_margins : PyNum
  market_cap : PyNum
  promoter_holding_proxy_pct : PyNum
deriving DecidableEq, Repr

/-- Embedding of _yahoo_ticker (line 43-44). -/
def yahoo_ticker_of (symbol : String) : String := symbol ++ ".NS"

/-- Embedding of the derived trailing P/E (fetch_single_fundamental lines
65-69): when the reported trailingPE coerces to absent, trailingEps is
truthy and > 0, and the Python expression
`info.get("currentPrice") or info.get("regularMarketPrice")` coerces to a
truthy float, trailing_pe becomes current_price / trailing_eps. -/
def compute_trailing_pe (info : Info) : PyNum :=
  match to_float info.trailingPE with
  | some pe => some pe
  | none =>
    match to_float info.trailingEps,
          to_float (py_or info.currentPrice info.regularMarketPrice) with
    | some eps, some price =>
        if eps.truthy && eps.pgt 0 && price.truthy then some (price.pdiv eps)
        else none
    | some _, none => none
    | none, _ => none

/-- Embedding of the insider-holding proxy (lines 71-72): insider × 100 when
the coerced insider value is present. -/
def promoter_proxy (info : Info) : PyNum :=
  match to_float info.heldPercentInsiders with
  | some insider => some (insider.pmul 100)
  | none => none

/-- Embedding of the FundamentalRow constructed by fetch_single_fundamental
(lines 74-90) once an info mapping has been obtained. -/
def fetch_single_fundamental_row (symbol company_name : String) (info : Info) :
    FundamentalRow :=
  { symbol := symbol
    yahoo_ticker := yahoo_ticker_of symbol
    company_name := company_name
    industry := info.industry
    sector := info.sector
    trailing_pe := compute_trailing_pe info
    forward_pe := to_float info.forwardPE
    peg_ratio := to_float info.pegRatio
    price_to_book := to_float info.priceToBook
    debt_to_equity := to_float info.debtToEquity
    return_on_equity := to_float info.returnOnEquity
    return_on_assets := to_float info.returnOnAssets
    profit_margins := to_float info.profitMargins
    market_cap := to_float info.marketCap
    promoter_holding_proxy_pct := promoter_proxy info }

/-- Outcome of a single attempt of the fetch retry loop: the yfinance call
either raises an exception (identified by a numeric code) or returns an info
mapping which is either non-empty (truthy) or empty. -/
inductive AttemptOutcome where
  | raises (e : ℕ)
  | returns (nonempty : Bool)
deriving DecidableEq, Repr

/-- Whether an attempt returned non-empty data. -/
def AttemptOutcome.returnsData : AttemptOutcome → Bool
  | returns true => true
  | _ => false

/-- Whether an attempt raised. -/
def AttemptOutcome.isRaise : AttemptOutcome → Bool
  | raises _ => true
  | _ => false

/-- Observable result of the retry loop: whether the loop exited with truthy
info, the recorded last error, and the sequence of delays slept. -/
structure RetryResult where
  got_info : Bool
  last_err : Option ℕ
  sleeps : List ℚ
deriving DecidableEq, Repr

/-- Delay slept after attempt number `attempt` (0-based): 0.15 × (attempt+1),
line 60 of fetcher.py. -/
def sleep_amount (attempt : ℕ) : ℚ := 0.15 * (attempt + 1)

/-- Embedding of the retry loop of fetch_single_fundamental (lines 50-60).
The input list gives the outcome each successive attempt would have. The
loop breaks at the first attempt whose returned info is non-empty, without
sleeping; otherwise it records the raised error (if the attempt raised) and
sleeps before the next attempt — and also after the final one. -/
def retry_go (attempt : ℕ) (outs : List AttemptOutcome) (last : Option ℕ) :
    RetryResult :=
  match outs with
  | [] => ⟨false, last, []⟩
  | .returns ne :: rest =>
      if ne then ⟨true, last, []⟩
      else
        let r := retry_go (attempt + 1) rest last
        ⟨r.got_info, r.last_err, sleep_amount attempt :: r.sleeps⟩
  | .raises e :: rest =>
      let r := retry_go (attempt + 1) rest (some e)
      ⟨r.got_info, r.last_err, sleep_amount attempt :: r.sleeps⟩

/-- The whole retry loop, started at attempt 0 with no recorded error. With
`retries = r` the source runs r + 1 attempts, so `outs` has length r + 1. -/
def retry_run (outs : List AttemptOutcome) : RetryResult := retry_go 0 outs none

/-- Lines 62-63 of fetcher.py: the task re-raises the recorded error exactly
when the loop ended with falsy info and some error had been recorded. -/
def RetryResult.raisesOut (r : RetryResult) : Bool := !r.got_info && r.last_err.isSome

/-- The fields of a ranked-report row that _score_row reads (report.py lines
61-147); pe_assessment is the string computed by _assess_pe, the numeric
fields come from CSV/merge columns and may be missing. -/
structure ScoredRowInput where
  pe_assessment : String
  forward_pe : PyNum
  trailing_pe : PyNum
  peg_ratio : PyNum
  return_on_equity : PyNum
  profit_margins : PyNum
  debt_to_equity : PyNum
  promoter_holding_proxy_pct : PyNum
  company_news_sentiment : PyNum
  ceo_commentary_sentiment : PyNum
deriving DecidableEq, Repr

/-- Embedding of fundamentals.report._score_row (lines 61-147): the additive
integer score and the joined reason summary (reasons capped to 6). -/
def score_row (r : ScoredRowInput) : ℤ × String :=
  let acc : ℤ × List String := (0, [])
  let acc :=
    if r.pe_assessment = "undervalued_vs_industry" ∨ r.pe_assessment = "low_absolute_pe" then
      (acc.1 + 2, acc.2 ++ ["PE favorable"])
    else if r.pe_assessment = "fair_vs_industry" ∨ r.pe_assessment = "mid_absolute_pe" then
      (acc.1 + 1, acc.2 ++ ["PE acceptable"])
    else acc
  let acc :=
    if notnaO r.forward_pe && notnaO r.trailing_pe && ogt r.forward_pe 0 &&
        ogt r.trailing_pe 0 && oflt r.forward_pe r.trailing_pe then
      (acc.1 + 1, acc.2 ++ ["Forward PE improving"])
    else acc
  let acc :=
    if notnaO r.peg_ratio && ogt r.peg_ratio 0 then
      if ole r.peg_ratio 1.2 then (acc.1 + 2, acc.2 ++ ["PEG attractive"])
      else if ole r.peg_ratio 1.8 then (acc.1 + 1, acc.2 ++ ["PEG reasonable"])
      else acc
    else acc
  let acc :=
    if notnaO r.return_on_equity then
      if oge r.return_on_equity 0.15 then (acc.1 + 2, acc.2 ++ ["High ROE"])
      else if oge r.return_on_equity 0.10 then (acc.1 + 1, acc.2 ++ ["Decent ROE"])
      else acc
    else acc
  let acc :=
    if notnaO r.profit_margins && oge r.profit_margins 0.10 then
      (acc.1 + 1, acc.2 ++ ["Healthy margins"])
    else acc
  let acc :=
    if notnaO r.debt_to_equity then
      if ole r.debt_to_equity 80 then (acc.1 + 1, acc.2 ++ ["Manageable debt"])
      else if oge r.debt_to_equity 250 then (acc.1 - 1, acc.2 ++ ["High leverage"])
      else acc
    else acc
  let acc :=
    if notnaO r.promoter_holding_proxy_pct then
      if oge r.promoter_holding_proxy_pct 45 then
        (acc.1 + 2, acc.2 ++ ["High insider/promoter proxy"])
      else if oge r.promoter_holding_proxy_pct 25 then
        (acc.1 + 1, acc.2 ++ ["Moderate insider/promoter proxy"])
      else acc
    else acc
  let acc :=
    if notnaO r.company_news_sentiment then
      if oge r.company_news_sentiment 0.20 then
        (acc.1 + 2, acc.2 ++ ["Strong company news sentiment"])
      else if oge r.company_news_sentiment 0.08 then
        (acc.1 + 1, acc.2 ++ ["Positive company news sentiment"])
      else if ole r.company_news_sentiment (-0.08) then
        (acc.1 - 1, acc.2 ++ ["Negative company news sentiment"])
      else acc
    else acc
  let acc :=
    if notnaO r.ceo_commentary_sentiment then
      if oge r.ceo_commentary_sentiment 0.15 then
        (acc.1 + 1, acc.2 ++ ["Positive CEO sentiment"])
      else if ole r.ceo_commentary_sentiment (-0.08) then
        (acc.1 - 1, acc.2 ++ ["Negative CEO sentiment"])
      else acc
    else acc
  (acc.1, String.intercalate "; " (acc.2.take 6))

/-- The verdict string computed inside _score_row (report.py lines 140-145);
the source computes it from the score but does not return it. -/
def score_verdict (score : ℤ) : String :=
  if score ≥ 8 then "High Potential"
  else if score ≥ 5 then "Watchlist"
  else "Avoid/Needs Work"

/-- The flag map applied to the score column in generate_fundamentals_report
(report.py lines 203-207), a nested np.where over the same thresholds. -/
def return_potential_flag (score : ℤ) : String :=
  if score ≥ 8 then "High Potential"
  else if score ≥ 5 then "Watchlist"
  else "Avoid/Needs Work"

/-- Model of Python str.upper() (ASCII), by mapping Char.toUpper over the
characters; kept character-level so that concrete instances compute. -/
def toUpperStr (s : String) : String := String.mk (s.data.map Char.toUpper)

/-- Model of Python str.lower() (ASCII). -/
def toLowerStr (s : String) : String := String.mk (s.data.map Char.toLower)

/-- Model of Python str.strip(): drop whitespace from both ends. -/
def trimStr (s : String) : String :=
  String.mk
    (((s.data.dropWhile Char.isWhitespace).reverse.dropWhile
      Char.isWhitespace).reverse)

/-- Code-point lexicographic order on character lists (Python string <). -/
def charListLt : List Char → List Char → Bool
  | [], [] => false
  | [], _ :: _ => true
  | _ :: _, [] => false
  | a :: as, b :: bs =>
      if a.toNat < b.toNat then true
      else if b.toNat < a.toNat then false
      else charListLt as bs

/-- Code-point lexicographic order on strings. -/
def strLt (a b : String) : Bool := charListLt a.data b.data

/-- Insert x into a list assumed sorted by le (structural, so that concrete
instances compute). -/
def insertSorted {α : Type} (le : α → α → Bool) (x : α) : List α → List α
  | [] => [x]
  | y :: ys => if le x y then x :: y :: ys else y :: insertSorted le x ys

/-- Insertion sort by a boolean comparison; models the row reordering of
DataFrame.sort_values and Python sorted (any sort produces a permutation,
which is all the properties below use). -/
def sortBy {α : Type} (le : α → α → Bool) : List α → List α
  | [] => []
  | x :: xs => insertSorted le x (sortBy le xs)

/-- A row of a raw fundamentals CSV table, keyed by its symbol column; the
remaining cells are abstracted into one payload string. -/
structure CacheRow where
  symbol : String
  payload : String
deriving DecidableEq, Repr

/-- Symbol normalization used by _merge_with_cache (report.py lines 155-156):
astype(str).str.upper().str.strip(). -/
def norm_symbol (s : String) : String := trimStr (toUpperStr s)

/-- Normalization of a whole row for the cache merge. -/
def norm_row (r : CacheRow) : CacheRow := { r with symbol := norm_symbol r.symbol }

/-- Embedding of DataFrame.drop_duplicates(subset=["symbol"], keep="last"):
keep a row exactly when its symbol does not occur again later, preserving
the order of the kept rows. -/
def dropDupKeepLast : List CacheRow → List CacheRow
  | [] => []
  | r :: rest =>
      if rest.any (fun x => x.symbol = r.symbol) then dropDupKeepLast rest
      else r :: dropDupKeepLast rest

/-- Embedding of the cache-merge core of _merge_with_cache (report.py lines
153-158), in the case where the cache file exists and has a symbol column:
normalize both symbol columns, concatenate cached before fresh, and drop
duplicate symbols keeping the last occurrence. -/
def merge_with_cache_core (cached fresh : List CacheRow) : List CacheRow :=
  dropDupKeepLast (cached.map norm_row ++ fresh.map norm_row)

/-- First-occurrence deduplication by a string key with an explicit seen
accumulator (the order-preserving semantics of pandas drop_duplicates with
keep="first", and of dict.fromkeys). -/
def dropDupByKeyAux {α : Type} (key : α → String) (seen : List String) :
    List α → List α
  | [] => []
  | x :: xs =>
      if key x ∈ seen then dropDupByKeyAux key seen xs
      else x :: dropDupByKeyAux key (key x :: seen) xs

/-- First-occurrence deduplication by a string key. -/
def dropDupByKey {α : Type} (key : α → String) (l : List α) : List α :=
  dropDupByKeyAux key [] l

/-- Embedding of _load_universe (report.py lines 11-26) on rows that survive
dropna, keeping only the (symbol, company_name) pair of each row: strip and
upper-case the symbol, strip the company name, drop rows with an empty
symbol or name, drop duplicate symbols keeping the first, and optionally
truncate to max_companies. -/
def load_universe (rows : List (String × String)) (max_companies : Option ℕ) :
    List (String × String) :=
  let r1 := rows.map (fun p => (toUpperStr (trimStr p.1), trimStr p.2))
  let r2 := r1.filter (fun p => p.1 ≠ "" ∧ p.2 ≠ "")
  let r3 := dropDupByKey Prod.fst r2
  match max_companies with
  | some m => r3.take m
  | none => r3

/-- Embedding of universe[["symbol"]].merge(rows, on="symbol", how="left")
(report.py line 164 and 182, and the line 185 re-merge): for each universe
symbol in order, emit every matching row, or a single all-missing row
(empty payload) when none matches. -/
def left_join_rows (univSyms : List String) (rows : List CacheRow) : List CacheRow :=
  univSyms.flatMap (fun s =>
    match rows.filter (fun r => r.symbol = s) with
    | [] => [⟨s, ""⟩]
    | ms => ms)

/-- State of an output CSV file on disk: missing, present but unparseable,
or a parsed table (its row list; a stored empty list is a zero-row table). -/
inductive FileState (α : Type) where
  | missing
  | unparseable
  | stored (rows : List α)
deriving DecidableEq, Repr

/-- Embedding of news.report._existing_non_empty (lines 41-49): an empty
table when the file is missing, unreadable, or empty; otherwise its rows. -/
def existing_non_empty {α : Type} : FileState α → List α
  | .missing => []
  | .unparseable => []
  | .stored rows => if rows.isEmpty then [] else rows

/-- Embedding of news.report._write_output (lines 52-71), returning both the
table the function returns and the resulting state of the file on disk.
With preserve_non_empty false the new table is always written; otherwise a
non-empty new table is written, an empty new table keeps a non-empty
readable on-disk table untouched (no write), and is written only when the
on-disk table is missing, unreadable or empty. -/
def write_output {α : Type} (new_df : List α) (disk : FileState α)
    (preserve_non_empty : Bool) : List α × FileState α :=
  if !preserve_non_empty then (new_df, .stored new_df)
  else if !new_df.isEmpty then (new_df, .stored new_df)
  else
    let existing := existing_non_empty disk
    if !existing.isEmpty then (existing, disk)
    else (new_df, .stored new_df)

/-- An incoming news item (news/fetcher.py NewsItem, as consumed by
_analyze_items). -/
structure NewsItemIn where
  symbol : String
  title : String
  link : String
  published : String
  source : String
deriving DecidableEq, Repr

/-- A row of a news details table (news/report.py _analyze_items lines
93-103). -/
structure DetailRow where
  symbol : String
  title : String
  link : String
  published : String
  source : String
  sentiment_label : String
  sentiment_score : ℚ
deriving DecidableEq, Repr

/-- A row of a per-symbol news summary table (news/report.py _summarize). -/
structure SummaryRow where
  symbol : String
  news_count : ℕ
  positive_count : ℕ
  neutral_count : ℕ
  negative_count : ℕ
  avg_sentiment : ℚ
  top_links : String
  vibe : String
deriving DecidableEq, Repr

/-- Embedding of _safe_links (lines 11-13): keep non-blank strings,
deduplicate preserving first occurrences, take 3, join with " | ". -/
def safe_links (links : List String) : String :=
  String.intercalate " | "
    ((dropDupByKey id (links.filter (fun x => trimStr x ≠ ""))).take 3)

/-- Embedding of _vibe (lines 16-21). -/
def vibe (score : ℚ) : String :=
  if score ≥ 0.05 then "positive vibe"
  else if score ≤ -0.05 then "negative vibe"
  else "neutral vibe"

/-- Embedding of _summarize (lines 24-38): group the details by symbol (the
key set is the deduplicated symbol column; pandas additionally sorts the
group keys, a pure reordering), aggregate each group, and sort by
(avg_sentiment, news_count) descending. -/
def summarize (details : List DetailRow) : List SummaryRow :=
  let syms := dropDupByKey id (details.map (fun r => r.symbol))
  let rows := syms.map (fun s =>
    let grp := details.filter (fun r => r.symbol = s)
    let avg : ℚ := (grp.map (fun r => r.sentiment_score)).sum / grp.length
    { symbol := s
      news_count := grp.length
      positive_count := (grp.filter (fun r => r.sentiment_label = "positive")).length
      neutral_count := (grp.filter (fun r => r.sentiment_label = "neutral")).length
      negative_count := (grp.filter (fun r => r.sentiment_label = "negative")).length
      avg_sentiment := avg
      top_links := safe_links (grp.map (fun r => r.link))
      vibe := vibe avg })
  sortBy (fun a b =>
    decide (b.avg_sentiment < a.avg_sentiment) ||
      (decide (a.avg_sentiment = b.avg_sentiment) && decide (b.news_count ≤ a.news_count)))
    rows

/-- Embedding of _analyze_items (lines 74-106): an empty item list yields the
empty details table (passed through the writer); otherwise each item is
scored by the analyzer (modeled as a function from title to label and
score) and the assembled details table is passed through the writer. -/
def analyze_items (analyze : String → String × ℚ) (items : List NewsItemIn)
    (disk : FileState DetailRow) (preserve_non_empty : Bool) :
    List DetailRow × FileState DetailRow :=
  if items.isEmpty then write_output [] disk preserve_non_empty
  else
    let rows := items.map (fun it =>
      let result := analyze it.title
      { symbol := it.symbol
        title := it.title
        link := it.link
        published := it.published
        source := it.source
        sentiment_label := result.1
        sentiment_score := result.2 })
    write_output rows disk preserve_non_empty

/-- Embedding of one news kind (company or CEO) of
generate_30d_news_and_ceo_reports (lines 139-194): preserve_non_empty is the
negation of force_refresh; the details table goes through _analyze_items,
the summary is _summarize of a non-empty details table (else the empty
summary table), and the summary goes through the writer. Returns the
returned summary and the final states of both files. -/
def news_kind_summary (analyze : String → String × ℚ) (items : List NewsItemIn)
    (diskDetails : FileState DetailRow) (diskSummary : FileState SummaryRow)
    (force_refresh : Bool) :
    List SummaryRow × FileState DetailRow × FileState SummaryRow :=
  let preserve_non_empty := !force_refresh
  let d := analyze_items analyze items diskDetails preserve_non_empty
  let summary := if d.1.isEmpty then [] else summarize d.1
  let s := write_output summary diskSummary preserve_non_empty
  (s.1, d.2, s.2)

/-- Substring membership test, the Python expression `w in t` on strings. -/
def strContains (t w : String) : Bool :=
  (List.range (t.length + 1)).any (fun i => w.data.isPrefixOf (t.data.drop i))

/-- Embedding of DEFAULT_POLICY_KEYWORDS (policy_report.py lines 9-66), an
ordered category → keyword-list mapping. -/
def DEFAULT_POLICY_KEYWORDS : List (String × List String) :=
  [ ("capex_infra",
     ["infrastructure", "infra", "capex", "highway", "railway", "metro",
      "airport", "port", "construction"]),
    ("manufacturing_pli",
     ["pli", "production linked incentive", "manufacturing",
      "electronics manufacturing", "domestic manufacturing"]),
    ("defence",
     ["defence", "defense", "defence ministry", "military", "order win"]),
    ("energy_transition",
     ["renewable", "solar", "wind", "green hydrogen", "battery", "ev",
      "energy transition"]),
    ("banking_credit",
     ["credit growth", "msme", "fiscal", "budget", "policy support",
      "rate cut"]),
    ("agri_rural",
     ["agri", "agriculture", "rural", "fertilizer", "irrigation", "crop"]),
    ("healthcare_pharma",
     ["healthcare", "pharma", "drug policy", "medical devices"]) ]

/-- Embedding of _matches (policy_report.py lines 79-85): lower-case the
text and collect, in mapping order, every category one of whose keywords is
a substring. -/
def matches_cats (text : String) (keywords : List (String × List String)) :
    List String :=
  let t := toLowerStr text
  (keywords.filter (fun kv => kv.2.any (fun w => strContains t w))).map (fun kv => kv.1)

/-- Embedding of _bucket (policy_report.py lines 88-93). -/
def bucket (score : ℚ) (mentions : ℤ) : String :=
  if mentions ≥ 5 ∧ score ≥ 8 then "High Policy Benefit"
  else if mentions ≥ 2 ∧ score ≥ 4 then "Potential Beneficiary"
  else "Watch"

/-- A row of the source news-details table as the policy report uses it,
with sentiment_score already put through
pd.to_numeric(errors="coerce").fillna(0.0) (line 141). -/
structure PolicyDetailRow where
  symbol : String
  title : String
  link : String
  published : String
  source : String
  sentiment_score : ℚ
deriving DecidableEq, Repr

/-- The matched_categories_list column of a row (line 142). -/
def row_matched (kw : List (String × List String)) (r : PolicyDetailRow) :
    List String :=
  matches_cats r.title kw

/-- The keyword_hit_count column (line 163): len(set(matched list)). -/
def row_hit_count (kw : List (String × List String)) (r : PolicyDetailRow) : ℕ :=
  (dropDupByKey id (row_matched kw r)).length

/-- The policy_row_score column (line 165): keyword_hit_count × 1.5 plus the
sentiment score clipped below at 0, times 2.0. -/
def policy_row_score (kw : List (String × List String)) (r : PolicyDetailRow) : ℚ :=
  (row_hit_count kw r : ℚ) * 1.5 + max r.sentiment_score 0 * 2.0

/-- The row-score formula in the words of the specification: 1.5 × distinct
matched-category count + 2.0 × max(sentiment_score, 0). Kept separate from
policy_row_score so that agreement between the two is a theorem. -/
def policy_row_score_spec (distinct_matched : ℕ) (sentiment : ℚ) : ℚ :=
  1.5 * (distinct_matched : ℚ) + 2.0 * max sentiment 0

/-- Ascending sort of a list of strings (Python sorted). -/
def sortStrings (l : List String) : List String :=
  sortBy (fun a b => !strLt b a) l

/-- A row of the policy-benefit summary table (policy_report.py lines
179-200). -/
structure PolicySummaryRow where
  symbol : String
  scheme_mentions : ℕ
  avg_scheme_sentiment : ℚ
  policy_benefit_score : ℚ
  matched_categories : String
  top_links : String
  benefit_bucket : String
deriving DecidableEq, Repr

/-- Embedding of the summary construction of generate_policy_benefit_report
(lines 140-202): retain rows whose title matches at least one category,
group by symbol (keys deduplicated; pandas sorts them, a pure reordering),
aggregate counts, mean sentiment, summed row scores, sorted unique matched
categories and up to 3 deduplicated non-empty links, bucket each symbol, and
sort by (score, mentions, avg sentiment) descending. -/
def generate_policy_summary (kw : List (String × List String))
    (details : List PolicyDetailRow) : List PolicySummaryRow :=
  let work := details.filter (fun r => decide (row_matched kw r ≠ []))
  let syms := dropDupByKey id (work.map (fun r => r.symbol))
  let rows := syms.map (fun s =>
    let grp := work.filter (fun r => r.symbol = s)
    let score : ℚ := (grp.map (fun r => policy_row_score kw r)).sum
    { symbol := s
      scheme_mentions := grp.length
      avg_scheme_sentiment := (grp.map (fun r => r.sentiment_score)).sum / grp.length
      policy_benefit_score := score
      matched_categories := String.intercalate ", "
        (sortStrings (dropDupByKey id (grp.flatMap (fun r => row_matched kw r))))
      top_links := String.intercalate " | "
        ((dropDupByKey id ((grp.map (fun r => r.link)).filter (fun x => x ≠ ""))).take 3)
      benefit_bucket := bucket score grp.length })
  sortBy (fun a b =>
    decide (b.policy_benefit_score < a.policy_benefit_score) ||
      (decide (a.policy_benefit_score = b.policy_benefit_score) &&
        (decide (b.scheme_mentions < a.scheme_mentions) ||
          (decide (a.scheme_mentions = b.scheme_mentions) &&
            decide (b.avg_scheme_sentiment ≤ a.avg_scheme_sentiment)))))
    rows

/-- The declared PolicyBenefitSummary column set (lines 113-121 / 146-155). -/
def policy_summary_columns : List String :=
  ["symbol", "scheme_mentions", "avg_scheme_sentiment", "policy_benefit_score",
   "matched_categories", "top_links", "benefit_bucket"]

/-- The declared PolicyEvidenceRow column set (lines 124-133 / 167-176). -/
def policy_evidence_columns : List String :=
  ["symbol", "published", "title", "link", "source", "sentiment_score",
   "matched_categories", "policy_row_score"]

/-- Header-level model of the two files generate_policy_benefit_report
writes: for each of the summary and the evidence file, its column list and
row count. detailCols is the column list of the source details CSV. With
empty details both files get the declared columns (lines 111-138); when no
row matches, the summary gets the declared columns but the evidence file is
written from the filtered `work` frame, whose columns are the source
columns plus matched_categories_list (lines 145-160); otherwise both carry
their declared columns (lines 162-206). -/
def generate_policy_outputs (detailCols : List String)
    (details : List PolicyDetailRow) (kw : List (String × List String)) :
    (List String × ℕ) × (List String × ℕ) :=
  if details.isEmpty then
    ((policy_summary_columns, 0), (policy_evidence_columns, 0))
  else
    let work := details.filter (fun r => decide (row_matched kw r ≠ []))
    if work.isEmpty then
      ((policy_summary_columns, 0),
       (detailCols ++ ["matched_categories_list"], work.length))
    else
      ((policy_summary_columns, (dropDupByKey id (work.map (fun r => r.symbol))).length),
       (policy_evidence_columns, work.length))

/-! Helper lemmas about the list machinery shared by several claims. -/

lemma insertSorted_perm {α : Type} (le : α → α → Bool) (x : α) :
    ∀ l : List α, (insertSorted le x l).Perm (x :: l) := by
  intro l
  induction l with
  | nil => simp [insertSorted]
  | cons y ys ih =>
    rw [insertSorted]
    by_cases h : le x y
    · rw [if_pos h]
    · rw [if_neg h]
      exact (List.Perm.cons y ih).trans (List.Perm.swap x y ys)

lemma sortBy_perm {α : Type} (le : α → α → Bool) :
    ∀ l : List α, (sortBy le l).Perm l := by
  intro l
  induction l with
  | nil => simp [sortBy]
  | cons x xs ih =>
    rw [sortBy]
    exact (insertSorted_perm le x (sortBy le xs)).trans (List.Perm.cons x ih)

lemma getLast?_cons_of_ne_nil {α : Type} (a : α) {l : List α} (h : l ≠ []) :
    (a :: l).getLast? = l.getLast? := by
  cases l with
  | nil => exact absurd rfl h
  | cons b m => exact List.getLast?_cons_cons

lemma mem_dropDupKeepLast {x : CacheRow} :
    ∀ {l : List CacheRow}, x ∈ dropDupKeepLast l → x ∈ l := by
  intro l
  induction l with
  | nil => simp [dropDupKeepLast]
  | cons r rest ih =>
    rw [dropDupKeepLast]
    by_cases hdup : rest.any (fun y => y.symbol = r.symbol)
    · rw [if_pos hdup]
      intro hx
      exact List.mem_cons_of_mem r (ih hx)
    · rw [if_neg hdup]
      intro hx
      rcases List.mem_cons.mp hx with h | h
      · exact h ▸ List.mem_cons_self r rest
      · exact List.mem_cons_of_mem r (ih h)

lemma dropDupKeepLast_filter (s : String) :
    ∀ l : List CacheRow,
      (dropDupKeepLast l).filter (fun r => r.symbol = s)
        = ((l.filter (fun r => r.symbol = s)).getLast?).toList := by
  intro l
  induction l with
  | nil => simp [dropDupKeepLast]
  | cons r rest ih =>
    rw [dropDupKeepLast]
    by_cases hdup : rest.any (fun y => y.symbol = r.symbol)
    · rw [if_pos hdup]
      by_cases hs : r.symbol = s
      · have hne : rest.filter (fun y => y.symbol = s) ≠ [] := by
          rcases List.any_eq_true.mp hdup with ⟨y, hy, hys⟩
          have hys2 : y.symbol = s := by
            have := of_decide_eq_true hys
            rw [this, hs]
          intro hnil
          have := List.filter_eq_nil_iff.mp hnil y hy
          simp [hys2] at this
        rw [ih, List.filter_cons_of_pos (by simpa using hs),
          getLast?_cons_of_ne_nil _ hne]
      · rw [ih, List.filter_cons_of_neg (by simpa using hs)]
    · rw [if_neg hdup]
      by_cases hs : r.symbol = s
      · have hnone : rest.filter (fun y => y.symbol = s) = [] := by
          apply List.filter_eq_nil_iff.mpr
          intro y hy
          simp only [decide_eq_true_eq]
          intro hys
          exact hdup (List.any_eq_true.mpr ⟨y, hy, by simp [hys, hs]⟩)
        rw [List.filter_cons_of_pos (by simpa using hs), ih, hnone,
          List.filter_cons_of_pos (by simpa using hs), hnone]
        rfl
      · rw [List.filter_cons_of_neg (by simpa using hs), ih,
          List.filter_cons_of_neg (by simpa using hs)]

lemma dropDupKeepLast_symbol_nodup :
    ∀ l : List CacheRow, ((dropDupKeepLast l).map (fun r => r.symbol)).Nodup := by
  intro l
  induction l with
  | nil => simp [dropDupKeepLast]
  | cons r rest ih =>
    rw [dropDupKeepLast]
    by_cases hdup : rest.any (fun y => y.symbol = r.symbol)
    · rw [if_pos hdup]; exact ih
    · rw [if_neg hdup]
      rw [List.map_cons, List.nodup_cons]
      refine ⟨?_, ih⟩
      intro hmem
      rcases List.mem_map.mp hmem with ⟨y, hy, hys⟩
      exact hdup (List.any_eq_true.mpr
        ⟨y, mem_dropDupKeepLast hy, by simp [hys]⟩)

lemma dropDupKeepLast_append_absorb :
    ∀ xs ys : List CacheRow,
      (∀ x ∈ xs, ∃ y ∈ ys, y.symbol = x.symbol) →
      dropDupKeepLast (xs ++ ys) = dropDupKeepLast ys := by
  intro xs
  induction xs with
  | nil => intro ys _; rfl
  | cons r rest ih =>
    intro ys h
    rw [List.cons_append, dropDupKeepLast, if_pos, ih ys]
    · intro x hx; exact h x (List.mem_cons_of_mem r hx)
    · rcases h r (List.mem_cons_self r rest) with ⟨y, hy, hys⟩
      exact List.any_eq_true.mpr
        ⟨y, List.mem_append_right rest hy, by simp [hys]⟩

lemma dropDupKeepLast_of_nodup :
    ∀ l : List CacheRow, ((l.map (fun r => r.symbol)).Nodup) →
      dropDupKeepLast l = l := by
  intro l
  induction l with
  | nil => intro _; rfl
  | cons r rest ih =>
    intro h
    rw [List.map_cons, List.nodup_cons] at h
    rw [dropDupKeepLast, if_neg, ih h.2]
    intro hany
    rcases List.any_eq_true.mp hany with ⟨y, hy, hys⟩
    exact h.1 (List.mem_map.mpr ⟨y, hy, of_decide_eq_true hys⟩)

lemma mem_of_mem_dropDupByKeyAux {α : Type} (key : α → String) :
    ∀ (seen : List String) (l : List α) (x : α),
      x ∈ dropDupByKeyAux key seen l → x ∈ l := by
  intro seen l
  induction l generalizing seen with
  | nil => intro x hx; simp [dropDupByKeyAux] at hx
  | cons a rest ih =>
    intro x hx
    rw [dropDupByKeyAux] at hx
    by_cases hs : key a ∈ seen
    · rw [if_pos hs] at hx
      exact List.mem_cons_of_mem a (ih seen x hx)
    · rw [if_neg hs] at hx
      rcases List.mem_cons.mp hx with h | h
      · exact h ▸ List.mem_cons_self a rest
      · exact List.mem_cons_of_mem a (ih (key a :: seen) x h)

lemma dropDupByKeyAux_key_nodup {α : Type} (key : α → String) :
    ∀ (seen : List String) (l : List α),
      ((dropDupByKeyAux key seen l).map key).Nodup ∧
        ∀ s ∈ (dropDupByKeyAux key seen l).map key, s ∉ seen := by
  intro seen l
  induction l generalizing seen with
  | nil => simp [dropDupByKeyAux]
  | cons a rest ih =>
    rw [dropDupByKeyAux]
    by_cases hs : key a ∈ seen
    · rw [if_pos hs]; exact ih seen
    · rw [if_neg hs]
      rcases ih (key a :: seen) with ⟨hnd, hseen⟩
      constructor
      · rw [List.map_cons, List.nodup_cons]
        refine ⟨?_, hnd⟩
        intro hmem
        exact hseen (key a) hmem (List.mem_cons_self (key a) seen)
      · intro s hsmem
        rcases List.mem_cons.mp hsmem with h | h
        · exact h ▸ hs
        · intro hin
          exact hseen s h (List.mem_cons_of_mem (key a) hin)

lemma dropDupByKey_key_nodup {α : Type} (key : α → String) (l : List α) :
    ((dropDupByKey key l).map key).Nodup :=
  (dropDupByKeyAux_key_nodup key [] l).1

lemma mem_of_mem_dropDupByKey {α : Type} (key : α → String) (l : List α)
    (x : α) (hx : x ∈ dropDupByKey key l) : x ∈ l :=
  mem_of_mem_dropDupByKeyAux key [] l x hx

lemma filter_key_length_le_one {rows : List CacheRow}
    (h : (rows.map (fun r => r.symbol)).Nodup) (s : String) :
    (rows.filter (fun r => r.symbol = s)).length ≤ 1 := by
  induction rows with
  | nil => simp
  | cons r rest ih =>
    rw [List.map_cons, List.nodup_cons] at h
    by_cases hr : r.symbol = s
    · rw [List.filter_cons_of_pos (by simpa using hr)]
      have hrest : rest.filter (fun y => y.symbol = s) = [] := by
        apply List.filter_eq_nil_iff.mpr
        intro y hy
        simp only [decide_eq_true_eq]
        intro hys
        exact h.1 (List.mem_map.mpr ⟨y, hy, by rw [hys, hr]⟩)
      simp [hrest]
    · rw [List.filter_cons_of_neg (by simpa using hr)]
      exact ih h.2

lemma left_join_rows_symbols (u : List String) (rows : List CacheRow)
    (h : (rows.map (fun r => r.symbol)).Nodup) :
    (left_join_rows u rows).map (fun r => r.symbol) = u := by
  induction u with
  | nil => rfl
  | cons s us ih =>
    rw [left_join_rows, List.flatMap_cons, List.map_append]
    rw [left_join_rows] at ih
    rw [ih]
    cases hf : rows.filter (fun r => r.symbol = s) with
    | nil => rfl
    | cons m ms =>
      have hlen := filter_key_length_le_one h s
      rw [hf] at hlen
      have hms : ms = [] := by
        cases ms with
        | nil => rfl
        | cons x xs => simp at hlen
      subst hms
      have hm : m.symbol = s := by
        have := List.mem_filter.mp (hf ▸ List.mem_cons_self m [])
        simpa using this.2
      simp [hm]

lemma load_universe_symbols_nodup (rows : List (String × String))
    (mc : Option ℕ) :
    ((load_universe rows mc).map Prod.fst).Nodup := by
  rw [load_universe.eq_def]
  cases mc with
  | none =>
    exact dropDupByKey_key_nodup Prod.fst _
  | some m =>
    rw [List.map_take]
    exact (List.take_sublist m _).nodup (dropDupByKey_key_nodup Prod.fst _)

lemma retry_go_got_info (outs : List AttemptOutcome) :
    ∀ (attempt : ℕ) (last : Option ℕ),
      (retry_go attempt outs last).got_info = outs.any AttemptOutcome.returnsData := by
  induction outs with
  | nil => intro a l; simp [retry_go]
  | cons o rest ih =>
    intro a l
    cases o with
    | returns ne =>
      cases ne with
      | true => simp [retry_go, AttemptOutcome.returnsData]
      | false => simp [retry_go, AttemptOutcome.returnsData, ih]
    | raises e => simp [retry_go, AttemptOutcome.returnsData, AttemptOutcome.isRaise, ih]

lemma retry_go_last_err (outs : List AttemptOutcome)
    (h : outs.any AttemptOutcome.returnsData = false) :
    ∀ (attempt : ℕ) (last : Option ℕ),
      (retry_go attempt outs last).last_err.isSome
        = (outs.any AttemptOutcome.isRaise || last.isSome) := by
  induction outs with
  | nil => intro a l; simp [retry_go]
  | cons o rest ih =>
    intro a l
    cases o with
    | returns ne =>
      cases ne with
      | true => simp [AttemptOutcome.returnsData] at h
      | false =>
        simp only [List.any_cons, AttemptOutcome.returnsData, Bool.false_or] at h
        simp [retry_go, AttemptOutcome.isRaise, ih h]
    | raises e =>
      simp only [List.any_cons, AttemptOutcome.returnsData, Bool.false_or] at h
      simp [retry_go, AttemptOutcome.isRaise, ih h]

lemma retry_go_sleeps (outs : List AttemptOutcome) :
    ∀ (attempt : ℕ) (last : Option ℕ),
      (retry_go attempt outs last).sleeps
        = (List.range (outs.takeWhile (fun o => !o.returnsData)).length).map
            (fun i => sleep_amount (attempt + i)) := by
  induction outs with
  | nil => intro a l; simp [retry_go]
  | cons o rest ih =>
    intro a l
    have hstep : ∀ k : ℕ,
        sleep_amount a :: (List.range k).map (fun i => sleep_amount (a + 1 + i))
          = (List.range (k + 1)).map (fun i => sleep_amount (a + i)) := by
      intro k
      rw [List.range_succ_eq_map, List.map_cons, List.map_map]
      rw [Nat.add_zero]
      congr 1
      apply List.map_congr_left
      intro i _
      simp only [Function.comp_apply, Nat.succ_eq_add_one]
      congr 1
      omega
    cases o with
    | returns ne =>
      cases ne with
      | true => simp [retry_go, AttemptOutcome.returnsData, List.takeWhile_cons]
      | false =>
        simp only [retry_go, AttemptOutcome.returnsData, List.takeWhile_cons,
          Bool.not_false, if_false, List.length_cons, ih]
        exact hstep _
    | raises e =>
      simp only [retry_go, AttemptOutcome.returnsData, List.takeWhile_cons,
        Bool.not_false, List.length_cons, ih]
      exact hstep _

lemma summarize_symbols_perm (details : List DetailRow) :
    ((summarize details).map (fun r => r.symbol)).Perm
      (dropDupByKey id (details.map (fun r => r.symbol))) := by
  rw [summarize]
  have hperm := sortBy_perm
    (fun a b : SummaryRow =>
      decide (b.avg_sentiment < a.avg_sentiment) ||
        (decide (a.avg_sentiment = b.avg_sentiment) &&
          decide (b.news_count ≤ a.news_count)))
    ((dropDupByKey id (details.map (fun r => r.symbol))).map (fun s =>
      let grp := details.filter (fun r => r.symbol = s)
      let avg : ℚ := (grp.map (fun r => r.sentiment_score)).sum / grp.length
      ({ symbol := s
         news_count := grp.length
         positive_count := (grp.filter (fun r => r.sentiment_label = "positive")).length
         neutral_count := (grp.filter (fun r => r.sentiment_label = "neutral")).length
         negative_count := (grp.filter (fun r => r.sentiment_label = "negative")).length
         avg_sentiment := avg
         top_links := safe_links (grp.map (fun r => r.link))
         vibe := vibe avg } : SummaryRow)))
  have := hperm.map (fun r : SummaryRow => r.symbol)
  refine this.trans ?_
  rw [List.map_map]
  have : ((fun r : SummaryRow => r.symbol) ∘ fun s =>
      let grp := details.filter (fun r => r.symbol = s)
      let avg : ℚ := (grp.map (fun r => r.sentiment_score)).sum / grp.length
      ({ symbol := s
         news_count := grp.length
         positive_count := (grp.filter (fun r => r.sentiment_label = "positive")).length
         neutral_count := (grp.filter (fun r => r.sentiment_label = "neutral")).length
         negative_count := (grp.filter (fun r => r.sentiment_label = "negative")).length
         avg_sentiment := avg
         top_links := safe_links (grp.map (fun r => r.link))
         vibe := vibe avg } : SummaryRow)) = id := by
    funext s
    rfl
  rw [this, List.map_id]

lemma policy_summary_symbols_perm (kw : List (String × List String))
    (pdetails : List PolicyDetailRow) :
    ((generate_policy_summary kw pdetails).map (fun r => r.symbol)).Perm
      (dropDupByKey id
        ((pdetails.filter (fun r => decide (row_matched kw r ≠ []))).map
          (fun r => r.symbol))) := by
  rw [generate_policy_summary]
  refine ((sortBy_perm _ _).map (fun r : PolicySummaryRow => r.symbol)).trans ?_
  rw [List.map_map]
  have : ((fun r : PolicySummaryRow => r.symbol) ∘ fun s =>
      let grp := (pdetails.filter (fun r => decide (row_matched kw r ≠ []))).filter
        (fun r => r.symbol = s)
      let score : ℚ := (grp.map (fun r => policy_row_score kw r)).sum
      ({ symbol := s
         scheme_mentions := grp.length
         avg_scheme_sentiment := (grp.map (fun r => r.sentiment_score)).sum / grp.length
         policy_benefit_score := score
         matched_categories := String.intercalate ", "
           (sortStrings (dropDupByKey id (grp.flatMap (fun r => row_matched kw r))))
         top_links := String.intercalate " | "
           ((dropDupByKey id ((grp.map (fun r => r.link)).filter (fun x => x ≠ ""))).take 3)
         benefit_bucket := bucket score grp.length } : PolicySummaryRow)) = id := by
    funext s
    rfl
  rw [this, List.map_id]

/-! Claim theorems. -/

/-- Claim C1: for every fundamentals row, the integer score and the
return_potential_flag agree on the same thresholds — score ≥ 8 iff the flag
is "High Potential", 5 ≤ score < 8 iff it is "Watchlist", score < 5 iff it
is "Avoid/Needs Work" — and the flag map of
generate_fundamentals_report coincides with the verdict map computed
independently inside _score_row. -/
theorem C1_score_flag_agreement (r : ScoredRowInput) :
    return_potential_flag (score_row r).1 = score_verdict (score_row r).1 ∧
    ((score_row r).1 ≥ 8 ↔
      return_potential_flag (score_row r).1 = "High Potential") ∧
    (5 ≤ (score_row r).1 ∧ (score_row r).1 < 8 ↔
      return_potential_flag (score_row r).1 = "Watchlist") ∧
    ((score_row r).1 < 5 ↔
      return_potential_flag (score_row r).1 = "Avoid/Needs Work") := by
  generalize (score_row r).1 = s
  unfold return_potential_flag score_verdict
  by_cases h8 : s ≥ 8
  · rw [if_pos h8]
    refine ⟨rfl, ⟨fun _ => rfl, fun _ => h8⟩, ?_, ?_⟩
    · exact ⟨fun h => absurd h8 (by omega), fun h => absurd h (by decide)⟩
    · exact ⟨fun h => absurd h8 (by omega), fun h => absurd h (by decide)⟩
  · by_cases h5 : s ≥ 5
    · rw [if_neg h8, if_pos h5]
      refine ⟨rfl, ?_, ⟨fun _ => rfl, fun _ => ⟨h5, by omega⟩⟩, ?_⟩
      · exact ⟨fun h => absurd h h8, fun h => absurd h (by decide)⟩
      · exact ⟨fun h => absurd h5 (by omega), fun h => absurd h (by decide)⟩
    · rw [if_neg h8, if_neg h5]
      refine ⟨rfl, ?_, ?_, ⟨fun _ => rfl, fun _ => by omega⟩⟩
      · exact ⟨fun h => absurd h h8, fun h => absurd h (by decide)⟩
      · exact ⟨fun h => absurd h.1 h5, fun h => absurd h (by decide)⟩

/-- Claim C3: the news writer in preserve mode (preserve_non_empty = true,
i.e. force_refresh = false) writes a non-empty new table; with an empty new
table it leaves a non-empty parseable on-disk table untouched, and writes
the empty table exactly when the parsed existing table is empty (the file
is missing, unreadable, or a zero-row table); in overwrite mode it always
writes the new table, empty or not. -/
theorem C3_writer_modes {α : Type} (new_df : List α) (disk : FileState α) :
    write_output new_df disk false = (new_df, FileState.stored new_df) ∧
    (new_df.isEmpty = false →
      write_output new_df disk true = (new_df, FileState.stored new_df)) ∧
    (∀ t : List α, disk = FileState.stored t → new_df.isEmpty = true →
      t.isEmpty = false → write_output new_df disk true = (t, disk)) ∧
    (new_df.isEmpty = true → (existing_non_empty disk).isEmpty = true →
      write_output new_df disk true = (new_df, FileState.stored new_df)) := by
  refine ⟨rfl, ?_, ?_, ?_⟩
  · intro h
    simp [write_output, h]
  · intro t ht hnew hne
    subst ht
    simp [write_output, existing_non_empty, hnew, hne]
  · intro hnew hex
    simp [write_output, hnew, hex]

/-- Witness for C3 at a concrete input: preserve mode with an empty new
table keeps the stored one-row table and does not rewrite the file. -/
theorem C3_writer_modes_witness :
    write_output ([] : List ℕ) (FileState.stored [5]) true
      = ([5], FileState.stored [5]) :=
  (C3_writer_modes [] (FileState.stored [5])).2.2.1 [5] rfl rfl rfl

/-- Claim C4: for every retained policy evidence row, policy_row_score is
exactly 1.5 × the number of distinct matched categories plus 2.0 ×
max(sentiment_score, 0); for a row with non-positive sentiment the
sentiment term contributes 0; and 2 distinct categories with sentiment 0.4
give 1.5 × 2 + 2.0 × 0.4 = 3.8. -/
theorem C4_policy_row_score_formula (kw : List (String × List String))
    (r rneg : PolicyDetailRow) (hneg : rneg.sentiment_score ≤ 0) :
    policy_row_score kw r
      = policy_row_score_spec (row_hit_count kw r) r.sentiment_score ∧
    policy_row_score kw rneg = 1.5 * (row_hit_count kw rneg : ℚ) ∧
    policy_row_score_spec 2 (2/5) = 3.8 := by
  refine ⟨?_, ?_, ?_⟩
  · unfold policy_row_score policy_row_score_spec
    ring
  · unfold policy_row_score
    rw [max_eq_right hneg]
    ring
  · unfold policy_row_score_spec
    norm_num

/-- Witness for C4 at a concrete input: a single matched category and
sentiment −0.3 score exactly 1.5, the negative sentiment contributing 0. -/
theorem C4_policy_row_score_formula_witness :
    policy_row_score [("capex_infra", ["metro"])]
        { symbol := "AAA", title := "new metro line", link := "", published := "",
          source := "", sentiment_score := -3/10 }
      = 1.5 * ((row_hit_count [("capex_infra", ["metro"])]
          { symbol := "AAA", title := "new metro line", link := "", published := "",
            source := "", sentiment_score := -3/10 } : ℕ) : ℚ) :=
  (C4_policy_row_score_formula [("capex_infra", ["metro"])]
    { symbol := "AAA", title := "new metro line", link := "", published := "",
      source := "", sentiment_score := -3/10 }
    { symbol := "AAA", title := "new metro line", link := "", published := "",
      source := "", sentiment_score := -3/10 }
    (by norm_num)).2.1

/-- Claim C5: the benefit bucket is "High Policy Benefit" exactly when
scheme_mentions ≥ 5 and policy_benefit_score ≥ 8; otherwise "Potential
Beneficiary" exactly when scheme_mentions ≥ 2 and score ≥ 4; otherwise
"Watch"; the boundaries are inclusive, as the three concrete instances
(5, 8), (5, 7.99) and (1, 100) show. -/
theorem C5_bucket_boundaries (score : ℚ) (mentions : ℤ) :
    (bucket score mentions = "High Policy Benefit" ↔
      mentions ≥ 5 ∧ score ≥ 8) ∧
    (bucket score mentions = "Potential Beneficiary" ↔
      ¬(mentions ≥ 5 ∧ score ≥ 8) ∧ mentions ≥ 2 ∧ score ≥ 4) ∧
    (bucket score mentions = "Watch" ↔
      ¬(mentions ≥ 5 ∧ score ≥ 8) ∧ ¬(mentions ≥ 2 ∧ score ≥ 4)) ∧
    bucket 8 5 = "High Policy Benefit" ∧
    bucket 7.99 5 = "Potential Beneficiary" ∧
    bucket 100 1 = "Watch" := by
  refine ⟨?_, ?_, ?_, ?_, ?_, ?_⟩
  · unfold bucket
    by_cases h1 : mentions ≥ 5 ∧ score ≥ 8
    · rw [if_pos h1]
      exact ⟨fun _ => h1, fun _ => rfl⟩
    · rw [if_neg h1]
      by_cases h2 : mentions ≥ 2 ∧ score ≥ 4
      · rw [if_pos h2]
        exact ⟨fun h => absurd h (by decide), fun h => absurd h h1⟩
      · rw [if_neg h2]
        exact ⟨fun h => absurd h (by decide), fun h => absurd h h1⟩
  · unfold bucket
    by_cases h1 : mentions ≥ 5 ∧ score ≥ 8
    · rw [if_pos h1]
      exact ⟨fun h => absurd h (by decide), fun h => absurd h1 h.1⟩
    · rw [if_neg h1]
      by_cases h2 : mentions ≥ 2 ∧ score ≥ 4
      · rw [if_pos h2]
        exact ⟨fun _ => ⟨h1, h2⟩, fun _ => rfl⟩
      · rw [if_neg h2]
        exact ⟨fun h => absurd h (by decide), fun h => absurd h.2 h2⟩
  · unfold bucket
    by_cases h1 : mentions ≥ 5 ∧ score ≥ 8
    · rw [if_pos h1]
      exact ⟨fun h => absurd h (by decide), fun h => absurd h1 h.1⟩
    · rw [if_neg h1]
      by_cases h2 : mentions ≥ 2 ∧ score ≥ 4
      · rw [if_pos h2]
        exact ⟨fun h => absurd h (by decide), fun h => absurd h2 h.2⟩
      · rw [if_neg h2]
        exact ⟨fun _ => ⟨h1, h2⟩, fun _ => rfl⟩
  · norm_num [bucket]
  · norm_num [bucket]
  · norm_num [bucket]

/-- Counterexample to claim C7: an infinite input value passes the numeric
coercion unchanged — to_float on +inf is +inf, which is not finite — and a
FundamentalRow built from an info mapping reporting an infinite trailingPE
stores that non-finite value rather than absent. -/
theorem C7_counterexample :
    to_float (some PFloat.inf) = some PFloat.inf ∧
    PFloat.inf.isFinite = false ∧
    (fetch_single_fundamental_row "AAA" "Alpha"
      { trailingPE := some PFloat.inf, trailingEps := none, currentPrice := none,
        regularMarketPrice := none, forwardPE := none, pegRatio := none,
        priceToBook := none, debtToEquity := none, returnOnEquity := none,
        returnOnAssets := none, profitMargins := none, marketCap := none,
        heldPercentInsiders := none, industry := none,
        sector := none }).trailing_pe = some PFloat.inf :=
  ⟨rfl, rfl, rfl⟩

/-- Claim C7 (amended): the numeric coercion collapses exactly the absent
and NaN inputs to absent and passes every other float through unchanged, so
each coerced numeric field of a FundamentalRow is either absent or a
non-NaN float — but not necessarily a finite one, since infinities survive
the coercion. -/
theorem C7_amended_to_float_characterization (v : PyNum) :
    (to_float v = none ↔ v = none ∨ v = some PFloat.nan) ∧
    (to_float v = none ∨ to_float v = v) ∧
    (to_float v).all (fun f => !f.isna) = true := by
  cases v with
  | none => simp [to_float]
  | some f => cases f <;> simp [to_float, PFloat.isna]

/-- Counterexample to claim C10: an info mapping with no trailingPE, a
strictly positive trailingEps of 5, and a present currentPrice of 0.0 (no
regularMarketPrice). The claim requires trailing_pe = 0 / 5 = 0, but the
source tests the price for Python truthiness, so the 0.0 price fails the
condition and trailing_pe is left absent. -/
theorem C10_counterexample :
    (fetch_single_fundamental_row "AAA" "Alpha"
      { trailingPE := none, trailingEps := some (PFloat.fin 5),
        currentPrice := some (PFloat.fin 0), regularMarketPrice := none,
        forwardPE := none, pegRatio := none, priceToBook := none,
        debtToEquity := none, returnOnEquity := none, returnOnAssets := none,
        profitMargins := none, marketCap := none, heldPercentInsiders := none,
        industry := none, sector := none }).trailing_pe = none ∧
    (some (PFloat.fin 0) : PyNum) ≠ none ∧
    (PFloat.fin 5).pgt 0 = true := by
  refine ⟨?_, by simp, by decide⟩
  rfl

/-- Claim C10 (amended): when the reported trailingPE coerces to absent,
trailingEps coerces to a truthy float that is > 0, and the Python
expression currentPrice-or-regularMarketPrice coerces to a truthy (non-zero,
non-absent) float, the constructed row's trailing_pe is price / eps rather
than absent. -/
theorem C10_amended_pe_fallback (s c : String) (info : Info)
    (eps price : PFloat)
    (hpe : to_float info.trailingPE = none)
    (heps : to_float info.trailingEps = some eps)
    (hepst : eps.truthy = true)
    (hepsp : eps.pgt 0 = true)
    (hprice : to_float (py_or info.currentPrice info.regularMarketPrice)
      = some price)
    (hpt : price.truthy = true) :
    (fetch_single_fundamental_row s c info).trailing_pe
      = some (price.pdiv eps) := by
  show compute_trailing_pe info = some (price.pdiv eps)
  rw [compute_trailing_pe, hpe, heps, hprice]
  simp [hepst, hepsp, hpt]

/-- Witness for the amended C10 at a concrete input: eps 5 and current price
100 produce trailing_pe 100 / 5 = 20. -/
theorem C10_amended_pe_fallback_witness :
    (fetch_single_fundamental_row "AAA" "Alpha"
      { trailingPE := none, trailingEps := some (PFloat.fin 5),
        currentPrice := some (PFloat.fin 100), regularMarketPrice := none,
        forwardPE := none, pegRatio := none, priceToBook := none,
        debtToEquity := none, returnOnEquity := none, returnOnAssets := none,
        profitMargins := none, marketCap := none, heldPercentInsiders := none,
        industry := none, sector := none }).trailing_pe
      = some ((PFloat.fin 100).pdiv (PFloat.fin 5)) :=
  C10_amended_pe_fallback "AAA" "Alpha" _ (PFloat.fin 5) (PFloat.fin 100)
    rfl rfl (by decide) (by decide) rfl (by decide)

/-- Counterexample to claim C8: with outcomes [raise, return-empty] the
final attempt completes without raising (it returns an empty info mapping),
yet the loop ends with falsy info and a recorded error from the first
attempt, so the error still propagates out of the task — the claim wrongly
requires the final attempt itself to have raised. -/
theorem C8_counterexample :
    (retry_run [AttemptOutcome.raises 7, AttemptOutcome.returns false]).raisesOut
      = true ∧
    [AttemptOutcome.raises 7, AttemptOutcome.returns false].getLast?
      = some (AttemptOutcome.returns false) ∧
    [AttemptOutcome.raises 7,
      AttemptOutcome.returns false].any AttemptOutcome.returnsData = false :=
  ⟨rfl, rfl, rfl⟩

/-- Claim C8 (amended): the loop sleeps 0.15 × (attempt index + 1) after
every attempt that neither returns data nor breaks the loop (including the
final one), and an error propagates out of the task exactly when no attempt
returned non-empty data and at least one attempt raised — the recorded
error being the most recent one, regardless of whether the final attempt
raised. -/
theorem C8_amended_retry_contract (outs : List AttemptOutcome) :
    ((retry_run outs).raisesOut = true ↔
      outs.any AttemptOutcome.returnsData = false ∧
        outs.any AttemptOutcome.isRaise = true) ∧
    (retry_run outs).sleeps
      = (List.range (outs.takeWhile (fun o => !o.returnsData)).length).map
          (fun i => sleep_amount i) := by
  constructor
  · rw [RetryResult.raisesOut]
    by_cases hd : outs.any AttemptOutcome.returnsData
    · rw [retry_run, retry_go_got_info, hd]
      simp [hd]
    · rw [Bool.not_eq_true] at hd
      rw [retry_run, retry_go_got_info, hd,
        retry_go_last_err outs hd 0 none]
      simp [hd]
  · rw [retry_run, retry_go_sleeps]
    simp

/-- Claim C2: the cache merge is keyed by the normalized (upper-cased,
trimmed) symbol; for any symbol occurring in the normalized fresh table the
merged table contains, for that symbol, exactly the last fresh row with it
(fresh beats cached); and merging a well-formed cache (already normalized,
one row per symbol) with itself as the fresh input returns exactly the
cache — the merge is idempotent when fresh equals cached. -/
theorem C2_merge_latest_wins_idempotent
    (cached fresh : List CacheRow) (s : String)
    (hs : (fresh.map norm_row).filter (fun r => r.symbol = s) ≠ [])
    (c : List CacheRow)
    (hnorm : ∀ r ∈ c, norm_row r = r)
    (hnodup : (c.map (fun r => r.symbol)).Nodup) :
    (merge_with_cache_core cached fresh).filter (fun r => r.symbol = s)
      = (((fresh.map norm_row).filter (fun r => r.symbol = s)).getLast?).toList ∧
    merge_with_cache_core c c = c := by
  constructor
  · rw [merge_with_cache_core, dropDupKeepLast_filter, List.filter_append,
      List.getLast?_append]
    cases hb : ((fresh.map norm_row).filter (fun r => r.symbol = s)).getLast? with
    | none =>
      exact absurd (List.getLast?_eq_none_iff.mp hb) hs
    | some x => rfl
  · rw [merge_with_cache_core]
    have hcmap : c.map norm_row = c := by
      conv_rhs => rw [← List.map_id c]
      exact List.map_congr_left hnorm
    rw [hcmap, dropDupKeepLast_append_absorb c c (fun x hx => ⟨x, hx, rfl⟩),
      dropDupKeepLast_of_nodup c hnodup]

/-- Witness for C2 at concrete inputs: a cached row for AAA is replaced by
the fresh row whose raw symbol "aAa " normalizes to AAA, and merging a
one-row normalized cache with itself returns it unchanged. -/
theorem C2_merge_latest_wins_idempotent_witness :
    (merge_with_cache_core [⟨"AAA", "old"⟩] [⟨"aAa ", "new"⟩]).filter
        (fun r => r.symbol = "AAA")
      = (((([⟨"aAa ", "new"⟩] : List CacheRow).map norm_row).filter
          (fun r => r.symbol = "AAA")).getLast?).toList ∧
    merge_with_cache_core [⟨"AAA", "x"⟩] [⟨"AAA", "x"⟩] = [⟨"AAA", "x"⟩] :=
  C2_merge_latest_wins_idempotent [⟨"AAA", "old"⟩] [⟨"aAa ", "new"⟩] "AAA"
    (by decide) [⟨"AAA", "x"⟩] (by decide) (by decide)

/-- Counterexample to claim C9: a one-row source table whose title matches
no keyword. Both outputs are written with zero rows, but the evidence file
is written from the filtered work frame, so its header is the source
columns plus matched_categories_list — not the declared PolicyEvidenceRow
column set. -/
theorem C9_counterexample :
    ((generate_policy_outputs
        ["symbol", "title", "link", "published", "source", "sentiment_score"]
        [{ symbol := "AAA", title := "qqq", link := "", published := "",
           source := "", sentiment_score := 0 }]
        DEFAULT_POLICY_KEYWORDS).2.1
      ≠ policy_evidence_columns) ∧
    (generate_policy_outputs
        ["symbol", "title", "link", "published", "source", "sentiment_score"]
        [{ symbol := "AAA", title := "qqq", link := "", published := "",
           source := "", sentiment_score := 0 }]
        DEFAULT_POLICY_KEYWORDS).2.2 = 0 := by
  constructor
  · decide
  · rfl

/-- Claim C9 (amended): with an empty source table both outputs are written
as zero-row tables with exactly the declared column sets; with a non-empty
source table in which no row matches any keyword, both outputs are still
written with zero rows and the summary keeps the declared columns, but the
evidence file carries the source details columns plus
matched_categories_list. -/
theorem C9_amended_degenerate_outputs (detailCols : List String)
    (details : List PolicyDetailRow) (kw : List (String × List String)) :
    (details = [] →
      generate_policy_outputs detailCols details kw
        = ((policy_summary_columns, 0), (policy_evidence_columns, 0))) ∧
    (details ≠ [] →
      details.filter (fun r => decide (row_matched kw r ≠ [])) = [] →
      generate_policy_outputs detailCols details kw
        = ((policy_summary_columns, 0),
            (detailCols ++ ["matched_categories_list"], 0))) := by
  constructor
  · intro h
    subst h
    rfl
  · intro hne hfil
    rw [generate_policy_outputs]
    rw [if_neg (by simpa [List.isEmpty_iff] using hne)]
    simp only [hfil, List.isEmpty_nil, if_pos, List.length_nil]

/-- Witness for the amended C9 at a concrete input: the no-match branch on a
one-row table writes a zero-row evidence file with the source columns plus
matched_categories_list. -/
theorem C9_amended_degenerate_outputs_witness :
    generate_policy_outputs
        ["symbol", "title", "link", "published", "source", "sentiment_score"]
        [{ symbol := "AAA", title := "qqq", link := "", published := "",
           source := "", sentiment_score := 0 }]
        DEFAULT_POLICY_KEYWORDS
      = ((policy_summary_columns, 0),
          (["symbol", "title", "link", "published", "source",
            "sentiment_score"] ++ ["matched_categories_list"], 0)) :=
  (C9_amended_degenerate_outputs
    ["symbol", "title", "link", "published", "source", "sentiment_score"]
    [{ symbol := "AAA", title := "qqq", link := "", published := "",
       source := "", sentiment_score := 0 }]
    DEFAULT_POLICY_KEYWORDS).2 (by decide) (by decide)

lemma write_output_overwrite {α : Type} (new_df : List α) (disk : FileState α) :
    write_output new_df disk false = (new_df, FileState.stored new_df) := rfl

lemma dropDupByKey_id_nodup (l : List String) : (dropDupByKey id l).Nodup := by
  have h := dropDupByKey_key_nodup id l
  rwa [List.map_id] at h

lemma news_overwrite_symbols (analyze : String → String × ℚ)
    (items : List NewsItemIn) (dD : FileState DetailRow)
    (dS : FileState SummaryRow) :
    (((news_kind_summary analyze items dD dS true).1.map
        (fun r => r.symbol)).Nodup) ∧
    ∀ s ∈ (news_kind_summary analyze items dD dS true).1.map
        (fun r => r.symbol), s ∈ items.map (fun it => it.symbol) := by
  cases items with
  | nil => simp [news_kind_summary, analyze_items, write_output]
  | cons a as =>
    have hred : (news_kind_summary analyze (a :: as) dD dS true).1
        = summarize ((a :: as).map (fun it =>
            let result := analyze it.title
            { symbol := it.symbol
              title := it.title
              link := it.link
              published := it.published
              source := it.source
              sentiment_label := result.1
              sentiment_score := result.2 })) := rfl
    rw [hred]
    have hperm := summarize_symbols_perm ((a :: as).map (fun it =>
      let result := analyze it.title
      ({ symbol := it.symbol
         title := it.title
         link := it.link
         published := it.published
         source := it.source
         sentiment_label := result.1
         sentiment_score := result.2 } : DetailRow)))
    have hmapmap : (((a :: as).map (fun it =>
        let result := analyze it.title
        ({ symbol := it.symbol
           title := it.title
           link := it.link
           published := it.published
           source := it.source
           sentiment_label := result.1
           sentiment_score := result.2 } : DetailRow))).map (fun r => r.symbol))
        = (a :: as).map (fun it => it.symbol) := by
      rw [List.map_map]
      rfl
    rw [hmapmap] at hperm
    constructor
    · exact hperm.symm.nodup (dropDupByKey_id_nodup _)
    · intro s hs
      have hmem := hperm.mem_iff.mp hs
      exact mem_of_mem_dropDupByKey id _ s hmem

lemma policy_summary_symbols_props (kw : List (String × List String))
    (pdetails : List PolicyDetailRow) :
    (((generate_policy_summary kw pdetails).map (fun r => r.symbol)).Nodup) ∧
    ∀ s ∈ (generate_policy_summary kw pdetails).map (fun r => r.symbol),
      s ∈ pdetails.map (fun r => r.symbol) := by
  have hperm := policy_summary_symbols_perm kw pdetails
  constructor
  · exact hperm.symm.nodup (dropDupByKey_id_nodup _)
  · intro s hs
    have hmem := mem_of_mem_dropDupByKey id _ s (hperm.mem_iff.mp hs)
    rcases List.mem_map.mp hmem with ⟨r, hr, hrs⟩
    exact List.mem_map.mpr ⟨r, (List.mem_filter.mp hr).1, hrs⟩

lemma ranked_symbols_eq (univ : List (String × String)) (mc : Option ℕ)
    (cached freshC : List CacheRow) :
    (left_join_rows ((load_universe univ mc).map Prod.fst)
        (left_join_rows ((load_universe univ mc).map Prod.fst)
          (merge_with_cache_core cached freshC))).map (fun r => r.symbol)
      = (load_universe univ mc).map Prod.fst := by
  have hu := load_universe_symbols_nodup univ mc
  have hm : ((merge_with_cache_core cached freshC).map
      (fun r => r.symbol)).Nodup := dropDupKeepLast_symbol_nodup _
  have h1 := left_join_rows_symbols ((load_universe univ mc).map Prod.fst)
    (merge_with_cache_core cached freshC) hm
  exact left_join_rows_symbols ((load_universe univ mc).map Prod.fst)
    (left_join_rows ((load_universe univ mc).map Prod.fst)
      (merge_with_cache_core cached freshC)) (by rw [h1]; exact hu)

/-- Counterexample to claim C6: a preserve-mode run (force_refresh = false)
whose universe is [AAA] and whose fetch returns no items, over an on-disk
details table left by an earlier run containing symbol ZZZ. The writer
keeps the old table, the summary is computed from it, and the output
summary contains symbol ZZZ, which is not in the run's universe. -/
theorem C6_counterexample :
    ((news_kind_summary (fun _ => ("neutral", 0)) []
        (FileState.stored
          [{ symbol := "ZZZ", title := "t", link := "", published := "",
             source := "", sentiment_label := "neutral",
             sentiment_score := 0 }])
        FileState.missing false).1.map (fun r => r.symbol)) = ["ZZZ"] ∧
    ("ZZZ" : String) ∉ (["AAA"] : List String) := by
  exact ⟨rfl, by decide⟩

/-- Claim C6 (amended): provided no previously stored table is substituted
by preserve mode — i.e. for the news summaries in overwrite mode
(force_refresh = true), for the policy summary over a details table whose
symbols come from the universe, and for the ranked fundamentals table —
every output summary or ranking table has at most one row per symbol and
every symbol in it belongs to the input universe; in preserve mode a kept
on-disk table may still carry symbols of an earlier run's universe. -/
theorem C6_amended_symbol_uniqueness_membership
    (analyze : String → String × ℚ) (items : List NewsItemIn)
    (universeSyms : List String)
    (dD : FileState DetailRow) (dS : FileState SummaryRow)
    (hitems : ∀ it ∈ items, it.symbol ∈ universeSyms)
    (kw : List (String × List String)) (pdetails : List PolicyDetailRow)
    (hpd : ∀ r ∈ pdetails, r.symbol ∈ universeSyms)
    (univ : List (String × String)) (mc : Option ℕ)
    (cached freshC : List CacheRow) :
    ((((news_kind_summary analyze items dD dS true).1.map
        (fun r => r.symbol)).Nodup) ∧
      ∀ s ∈ (news_kind_summary analyze items dD dS true).1.map
          (fun r => r.symbol), s ∈ universeSyms) ∧
    ((((generate_policy_summary kw pdetails).map (fun r => r.symbol)).Nodup) ∧
      ∀ s ∈ (generate_policy_summary kw pdetails).map (fun r => r.symbol),
        s ∈ universeSyms) ∧
    ((((left_join_rows ((load_universe univ mc).map Prod.fst)
          (left_join_rows ((load_universe univ mc).map Prod.fst)
            (merge_with_cache_core cached freshC))).map
        (fun r => r.symbol)).Nodup) ∧
      ∀ s ∈ (left_join_rows ((load_universe univ mc).map Prod.fst)
          (left_join_rows ((load_universe univ mc).map Prod.fst)
            (merge_with_cache_core cached freshC))).map (fun r => r.symbol),
        s ∈ (load_universe univ mc).map Prod.fst) := by
  refine ⟨⟨(news_overwrite_symbols analyze items dD dS).1, ?_⟩,
    ⟨(policy_summary_symbols_props kw pdetails).1, ?_⟩, ?_⟩
  · intro s hs
    have := (news_overwrite_symbols analyze items dD dS).2 s hs
    rcases List.mem_map.mp this with ⟨it, hit, hits⟩
    exact hits ▸ hitems it hit
  · intro s hs
    have := (policy_summary_symbols_props kw pdetails).2 s hs
    rcases List.mem_map.mp this with ⟨r, hr, hrs⟩
    exact hrs ▸ hpd r hr
  · rw [ranked_symbols_eq univ mc cached freshC]
    exact ⟨load_universe_symbols_nodup univ mc, fun s hs => hs⟩

/-- Witness for the amended C6 at concrete inputs: a one-item universe-AAA
news run in overwrite mode, an empty policy details table, and a one-row
universe with empty cache and fresh tables. -/
theorem C6_amended_symbol_uniqueness_membership_witness :
    ((((news_kind_summary (fun _ => ("neutral", 0))
        [{ symbol := "AAA", title := "t", link := "", published := "",
           source := "" }] FileState.missing FileState.missing true).1.map
          (fun r => r.symbol)).Nodup) ∧
      ∀ s ∈ (news_kind_summary (fun _ => ("neutral", 0))
            [{ symbol := "AAA", title := "t", link := "", published := "",
               source := "" }] FileState.missing FileState.missing true).1.map
            (fun r => r.symbol), s ∈ ["AAA"]) ∧
    ((((generate_policy_summary DEFAULT_POLICY_KEYWORDS []).map
        (fun r => r.symbol)).Nodup) ∧
      ∀ s ∈ (generate_policy_summary DEFAULT_POLICY_KEYWORDS []).map
          (fun r => r.symbol), s ∈ ["AAA"]) ∧
    ((((left_join_rows ((load_universe [("aaa", "Alpha")] none).map Prod.fst)
          (left_join_rows ((load_universe [("aaa", "Alpha")] none).map Prod.fst)
            (merge_with_cache_core [] []))).map
        (fun r => r.symbol)).Nodup) ∧
      ∀ s ∈ (left_join_rows ((load_universe [("aaa", "Alpha")] none).map Prod.fst)
          (left_join_rows ((load_universe [("aaa", "Alpha")] none).map Prod.fst)
            (merge_with_cache_core [] []))).map (fun r => r.symbol),
        s ∈ (load_universe [("aaa", "Alpha")] none).map Prod.fst) :=
  C6_amended_symbol_uniqueness_membership (fun _ => ("neutral", 0))
    [{ symbol := "AAA", title := "t", link := "", published := "",
       source := "" }] ["AAA"] FileState.missing FileState.missing
    (by decide) DEFAULT_POLICY_KEYWORDS [] (by simp)
    [("aaa", "Alpha")] none [] []
